import Mathlib

/-!
Verification of the point-head target assignment and loss computation of
`lib/pcdet/models/dense_heads/point_head_template.py` (class `PointHeadTemplate`)
and its subclass in `point_intra_part_head.py`.

Shallow embedding conventions:
* Tensor rows become Lean lists; coordinates are rationals (`ℚ`).
* A ground-truth box row is the 7-tuple `(x, y, z, h, w, l, ry)` (columns
  0..6), matching the docstrings in the source
  (`point_box_labels: (BN, 8) x,y,z,h,w,l,conry sinry`) and the
  concatenation `[col 5, col 3, col 4]` used as `(l, h, w)` at line 144.
* External collaborators that are not part of this repository
  (`roiaware_pool3d_utils.points_in_boxes_gpu`, `common_utils.rotate_points_along_y`,
  the box coder, and the elementwise loss kernels of `loss_utils` /
  `torch.nn.functional`) are modelled from the spec, parametrically where
  the claims allow it.
-/

namespace PointHead

/-- A 3D point `(x, y, z)`; one row of the `points` tensor. -/
structure Pt where
  x : ℚ
  y : ℚ
  z : ℚ
  deriving DecidableEq, Repr

/-- One row of the `gt_boxes` tensor: columns `(x, y, z, h, w, l, ry)`.
Column 6 (`ry`) is the heading angle about the vertical (y) axis. -/
structure Box where
  x : ℚ
  y : ℚ
  z : ℚ
  h : ℚ
  w : ℚ
  l : ℚ
  ry : ℚ
  deriving DecidableEq, Repr

/-- Modelled from the spec: the trigonometric data of rotations about the
vertical axis.  Angles are rationals; `cosF`/`sinF` stand for the cosine and
sine used by `common_utils.rotate_points_along_y` (external to this
repository).  The only facts the concrete instantiations rely on are the
values at angle `0`. -/
structure VertRot where
  cosF : ℚ → ℚ
  sinF : ℚ → ℚ
  cos_zero : cosF 0 = 1
  sin_zero : sinF 0 = 0

/-- A degenerate instantiation of `VertRot` used for evaluating the
development on concrete inputs whose headings are all `0`. -/
def trivRot : VertRot := ⟨fun _ => 1, fun _ => 0, rfl, rfl⟩

/-- Modelled from the spec: `common_utils.rotate_points_along_y` (external),
rotation of a point about the vertical (y) axis by `angle`. -/
def rotate_points_along_y (R : VertRot) (angle : ℚ) (p : Pt) : Pt :=
  ⟨R.cosF angle * p.x + R.sinF angle * p.z,
   p.y,
   R.cosF angle * p.z - R.sinF angle * p.x⟩

/-- The coordinates of point `p` in the local (canonical) frame of box `b`:
translate by the box center, then rotate by the negated heading about the
vertical axis.  This is the transform of lines 135-138 of
`point_head_template.py`, and also the frame in which the point-in-box
test is expressed. -/
def localCoords (R : VertRot) (b : Box) (p : Pt) : Pt :=
  rotate_points_along_y R (-b.ry) ⟨p.x - b.x, p.y - b.y, p.z - b.z⟩

/-- Modelled from the spec: membership of a point in an oriented box, the
per-box primitive of `roiaware_pool3d_utils.points_in_boxes_gpu` (external).
In the box's local frame the extent is `l` along the local x axis, `h`
along the local y axis and `w` along the local z axis, matching the
normalization of line 145. -/
def inBox (R : VertRot) (b : Box) (p : Pt) : Bool :=
  let q := localCoords R b p
  decide (|q.x| ≤ b.l / 2) && decide (|q.y| ≤ b.h / 2) && decide (|q.z| ≤ b.w / 2)

/-- A point strictly inside box `b` (strict inequalities in the local frame). -/
def strictlyInside (R : VertRot) (b : Box) (p : Pt) : Prop :=
  let q := localCoords R b p
  |q.x| < b.l / 2 ∧ |q.y| < b.h / 2 ∧ |q.z| < b.w / 2

/-- Modelled from the spec: `roiaware_pool3d_utils.points_in_boxes_gpu`
(external) — for one point, the index of its containing box, `-1` when no
box contains it ("the index of the (single) containing box"; we return the
first one). -/
def points_in_boxes_gpu (R : VertRot) (boxes : List Box) (p : Pt) : ℤ :=
  match boxes with
  | [] => -1
  | b :: bs =>
    if inBox R b p then 0
    else
      let r := points_in_boxes_gpu R bs p
      if r < 0 then -1 else r + 1

/-- Python `Tensor.long()` on a rational scalar: truncation toward zero. -/
def pyLong (q : ℚ) : ℤ := if 0 ≤ q then ⌊q⌋ else ⌈q⌉

/-- Python indexing `bs[i]` with negative-index wraparound
(`gt_boxes[k][box_idxs_of_pts]` at line 108 receives `-1` entries for
points contained in no box; PyTorch resolves them to the last row).
Out-of-range access is an error in the source; the default is never
reached under the guards of the definitions below. -/
def pyIndex (bs : List Box) (i : ℤ) : Box :=
  bs.getD (if 0 ≤ i then i.toNat else (i + bs.length).toNat) ⟨0, 0, 0, 0, 0, 0, 0⟩

/-- Squared Euclidean distance between two points.  The source compares
`(box_centers - points_single).norm(dim=1) < central_radius` (line 110);
for a nonnegative radius this is equivalent to the squared comparison. -/
def distSq (a b : Pt) : ℚ :=
  (a.x - b.x) ^ 2 + (a.y - b.y) ^ 2 + (a.z - b.z) ^ 2

/-- Lines 108-109: the box center with `box_centers[:, 2] += gt_boxes[k][...][:, 5] / 2`,
i.e. the third coordinate (z) shifted by half of column 5 (`l`). -/
def shiftedCenter (b : Box) : Pt := ⟨b.x, b.y, b.z + b.l / 2⟩

/-- Line 110: the ball constraint for one point, against its assigned box
(negative indices resolved as Python does). -/
def ballFlag (R : VertRot) (boxes : List Box) (radius : ℚ) (p : Pt) : Bool :=
  let b := pyIndex boxes (points_in_boxes_gpu R boxes p)
  decide (distSq (shiftedCenter b) p < radius ^ 2)

/-- Line 87 / line 104: foreground flag in ignore-flag mode — the point is
contained in some ground-truth box. -/
def fgIgnore (R : VertRot) (boxes : List Box) (p : Pt) : Bool :=
  decide (0 ≤ points_in_boxes_gpu R boxes p)

/-- Line 111: foreground flag in ball-constraint mode. -/
def fgBall (R : VertRot) (boxes : List Box) (radius : ℚ) (p : Pt) : Bool :=
  fgIgnore R boxes p && ballFlag R boxes radius p

/-- Line 117: the class value written at a foreground point: `1` when
`num_class == 1`, otherwise `gt_box_of_fg_points[:, -1].long()` — and the
last column of a 7-column box row is the heading `ry`. -/
def fgClsValue (boxes : List Box) (num_class : ℕ) (R : VertRot) (p : Pt) : ℤ :=
  if num_class = 1 then 1
  else pyLong (pyIndex boxes (points_in_boxes_gpu R boxes p)).ry

/-- Lines 100-106 and 117, for one point: the classification label in
ignore-flag mode.  The source initializes the label to `0`, writes `-1` at
`ignore_flag = fg_flag ^ (extend_box_idxs_of_pts >= 0)` (line 106), and then
overwrites foreground positions (line 117); the final value is therefore:
foreground takes the class value, otherwise an ignored point takes `-1`,
otherwise `0`. -/
def clsLabelIgnore (R : VertRot) (boxes ext : List Box) (num_class : ℕ) (p : Pt) : ℤ :=
  let fg := fgIgnore R boxes p
  let ign := xor fg (decide (0 ≤ points_in_boxes_gpu R ext p))
  if fg then fgClsValue boxes num_class R p
  else if ign then -1 else 0

/-- Lines 107-111 and 117, for one point: the classification label in
ball-constraint mode (no ignore write happens in this branch). -/
def clsLabelBall (R : VertRot) (boxes : List Box) (num_class : ℕ) (radius : ℚ) (p : Pt) : ℤ :=
  if fgBall R boxes radius p then fgClsValue boxes num_class R p else 0

/-- The all-zero 8-entry box-label row (`new_zeros((_, 8))`). -/
def zeros8 : List ℚ := List.replicate 8 0

/-- Lines 121-131, for one batch element: box-regression label rows.  When
`ret_box_labels` holds and at least one foreground point exists, foreground
rows receive the box coder's encoding of the assigned box at the point and
the remaining rows stay zero; otherwise the block of the (zero-initialized)
global tensor is left untouched. -/
def boxRowsOf (R : VertRot) (encode : Box → Pt → List ℚ) (boxes : List Box)
    (fgF : Pt → Bool) (ret_box : Bool) (pts : List Pt) : List (List ℚ) :=
  if ret_box ∧ 0 < pts.countP fgF then
    pts.map (fun p =>
      if fgF p then encode (pyIndex boxes (points_in_boxes_gpu R boxes p)) p else zeros8)
  else List.replicate pts.length zeros8

/-- Lines 135-145, for one foreground point: translate into the assigned
box's local frame, divide componentwise by `(l, h, w)` (the concatenation
`[col 5, col 3, col 4]` of line 144), and add the offset `(1/2, 1/2, 1/2)`. -/
def partLabelOf (R : VertRot) (b : Box) (p : Pt) : Pt :=
  let t := localCoords R b p
  ⟨t.x / b.l + 1 / 2, t.y / b.h + 1 / 2, t.z / b.w + 1 / 2⟩

/-- Lines 133-146, for one batch element: part-offset label rows — the
part label at foreground points, zero elsewhere. -/
def partRowsOf (R : VertRot) (boxes : List Box) (fgF : Pt → Bool)
    (ret_part : Bool) (pts : List Pt) : List Pt :=
  if ret_part then
    pts.map (fun p =>
      if fgF p then partLabelOf R (pyIndex boxes (points_in_boxes_gpu R boxes p)) p
      else ⟨0, 0, 0⟩)
  else List.replicate pts.length ⟨0, 0, 0⟩

/-- The failure modes of `assign_stack_targets`: the `assert
set_ignore_flag != use_ball_constraint` of line 73, the use of
`extend_gt_boxes` (line 101) when the caller passed `None`, and the
`raise NotImplementedError` of line 113. -/
inductive AssignErr where
  | configError
  | missingExtend
  | notImplemented
  deriving DecidableEq, Repr

/-- Lines 79-146, one iteration of the per-batch-element loop: the
classification labels, box-label rows and part-label rows for the points of
one batch element. -/
def assignSingle (R : VertRot) (encode : Box → Pt → List ℚ) (num_class : ℕ)
    (pts : List Pt) (boxes : List Box) (extOpt : Option (List Box))
    (ret_box ret_part set_ignore use_ball : Bool) (radius : ℚ) :
    Except AssignErr (List ℤ × List (List ℚ) × List Pt) :=
  if set_ignore then
    match extOpt with
    | none => Except.error AssignErr.missingExtend
    | some ext =>
        Except.ok (pts.map (clsLabelIgnore R boxes ext num_class),
          boxRowsOf R encode boxes (fgIgnore R boxes) ret_box pts,
          partRowsOf R boxes (fgIgnore R boxes) ret_part pts)
  else if use_ball then
    Except.ok (pts.map (clsLabelBall R boxes num_class radius),
      boxRowsOf R encode boxes (fgBall R boxes radius) ret_box pts,
      partRowsOf R boxes (fgBall R boxes radius) ret_part pts)
  else Except.error AssignErr.notImplemented

/-- The `for k in range(batch_size)` loop, sequencing per-batch results and
propagating the first error. -/
def forBatches {β : Type} (f : ℕ → Except AssignErr β) : List ℕ → Except AssignErr (List β)
  | [] => Except.ok []
  | k :: ks =>
    match f k with
    | Except.error e => Except.error e
    | Except.ok b =>
      match forBatches f ks with
      | Except.error e => Except.error e
      | Except.ok bs => Except.ok (b :: bs)

/-- The dictionary returned at lines 148-152. -/
structure TargetsDict where
  point_cls_labels : List ℤ
  point_box_labels : Option (List (List ℚ))
  point_part_labels : Option (List Pt)
  deriving DecidableEq, Repr

/-- `PointHeadTemplate.assign_stack_targets` (lines 49-153).  The source
first copies `points` together with batch indices into a fresh tensor
(lines 62-67; the flattened stacked layout concatenates the batch blocks in
order), asserts `set_ignore_flag != use_ball_constraint` (line 73), and then
runs the per-batch loop, scattering each batch element's labels into the
global label tensors at the rows of that batch element.  The `k`-th batch
element uses `points[k]`, `gt_boxes[k]` and `extend_gt_boxes[k]`. -/
def assign_stack_targets (R : VertRot) (encode : Box → Pt → List ℚ) (num_class : ℕ)
    (points : List (List Pt)) (gt_boxes : List (List Box))
    (extend_gt_boxes : Option (List (List Box)))
    (ret_box_labels ret_part_labels set_ignore_flag use_ball_constraint : Bool)
    (central_radius : ℚ) : Except AssignErr TargetsDict :=
  if set_ignore_flag == use_ball_constraint then Except.error AssignErr.configError
  else
    match forBatches (fun k =>
        assignSingle R encode num_class (points.getD k []) (gt_boxes.getD k [])
          (extend_gt_boxes.map (fun e => e.getD k []))
          ret_box_labels ret_part_labels set_ignore_flag use_ball_constraint central_radius)
        (List.range gt_boxes.length) with
    | Except.error e => Except.error e
    | Except.ok rs =>
        Except.ok
          { point_cls_labels := (rs.map (fun r => r.1)).flatten,
            point_box_labels :=
              if ret_box_labels then some ((rs.map (fun r => r.2.1)).flatten) else none,
            point_part_labels :=
              if ret_part_labels then some ((rs.map (fun r => r.2.2)).flatten) else none }

/-- Line 160-161: the unnormalized per-point classification weight,
`(point_cls_labels == 0) * 1.0 + 1.0 * (point_cls_labels > 0)`. -/
def clsWeightRaw (t : ℤ) : ℚ :=
  (if t = 0 then 1 else 0) + (if 0 < t then 1 else 0)

/-- Line 162 / 183 / 202: the number of points with a positive label. -/
def posCount (labels : List ℤ) : ℕ :=
  labels.countP (fun t => decide (0 < t))

/-- Line 163 / 203: `torch.clamp(pos_normalizer, min=1.0)`. -/
def clampedPosNorm (labels : List ℤ) : ℚ :=
  max ((posCount labels : ℚ)) 1

/-- Lines 165-167: the one-hot target row of one point over the
`num_class` foreground columns.  The scatter index is
`label * (label >= 0)`, so both label `-1` and label `0` scatter into
column 0 of the `num_class + 1` columns, which is then dropped; the row has
a `1` exactly in column `label - 1` when `1 ≤ label ≤ num_class`. -/
def oneHotRow (num_class : ℕ) (t : ℤ) : List ℚ :=
  (List.range num_class).map (fun c => if t = (c : ℤ) + 1 then 1 else 0)

/-- Elementwise kernel summed over one row: `Σ_c f (pred c) (target c)`. -/
def rowLossSum (f : ℚ → ℚ → ℚ) (predRow targetRow : List ℚ) : ℚ :=
  ((predRow.zip targetRow).map (fun pr => f pr.1 pr.2)).sum

/-- The contribution of one point to the summed classification loss, given
the already-clamped normalizer: the externally supplied elementwise focal
kernel `cl` summed over the point's row, times the point's weight
(`cls_weights /= torch.clamp(pos_normalizer, min=1.0)`, line 163). -/
def clsPointTerm (cl : ℚ → ℚ → ℚ) (num_class : ℕ) (norm : ℚ)
    (t : ℤ) (predRow : List ℚ) : ℚ :=
  rowLossSum cl predRow (oneHotRow num_class t) * (clsWeightRaw t / norm)

/-- `PointHeadTemplate.get_cls_layer_loss` (lines 155-179), as the returned
scalar `point_loss_cls`.  `cl` is the elementwise kernel of the external
`loss_utils.SigmoidFocalClassificationLoss` (modelled from the spec: the
per-element loss is weighted by the per-point weight and everything is
summed), and `cfgW` is `LOSS_WEIGHTS['point_cls_weight']`. -/
def get_cls_layer_loss (cl : ℚ → ℚ → ℚ) (num_class : ℕ) (cfgW : ℚ)
    (labels : List ℤ) (preds : List (List ℚ)) : ℚ :=
  (((labels.zip preds).map
      (fun x => clsPointTerm cl num_class (clampedPosNorm labels) x.1 x.2)).sum) * cfgW

/-- `binary_cross_entropy(torch.sigmoid(pred), target)` summed over the
three part-offset channels of one point; `bce` and `sig` are the external
elementwise kernels. -/
def bceRowSum (bce : ℚ → ℚ → ℚ) (sig : ℚ → ℚ) (pred lbl : Pt) : ℚ :=
  bce (sig pred.x) lbl.x + bce (sig pred.y) lbl.y + bce (sig pred.z) lbl.z

/-- The contribution of one point to the numerator of the part loss:
`point_loss_part.sum(dim=-1) * pos_mask.float()` (line 187). -/
def partPointTerm (bce : ℚ → ℚ → ℚ) (sig : ℚ → ℚ) (t : ℤ) (pred lbl : Pt) : ℚ :=
  bceRowSum bce sig pred lbl * (if 0 < t then 1 else 0)

/-- `PointHeadTemplate.get_part_layer_loss` (lines 181-194), as the returned
scalar `point_loss_part`: the masked sum divided by
`3 * max(1, pos_count)` and scaled by `LOSS_WEIGHTS['point_part_weight']`. -/
def get_part_layer_loss (bce : ℚ → ℚ → ℚ) (sig : ℚ → ℚ) (cfgW : ℚ)
    (labels : List ℤ) (partPreds partLbls : List Pt) : ℚ :=
  (((labels.zip (partPreds.zip partLbls)).map
      (fun x => partPointTerm bce sig x.1 x.2.1 x.2.2)).sum)
    / (3 * (max 1 (posCount labels) : ℕ)) * cfgW

/-- Lines 201-203: the per-point regression weight
`pos_mask.float() / torch.clamp(pos_mask.sum(), min=1.0)`. -/
def regWeight (labels : List ℤ) (t : ℤ) : ℚ :=
  (if 0 < t then 1 else 0) / clampedPosNorm labels

/-- The contribution of one point to the summed box-regression loss: the
external elementwise regression kernel `rl` summed over the point's row,
times the point's regression weight. -/
def boxPointTerm (rl : ℚ → ℚ → ℚ) (norm : ℚ) (t : ℤ) (predRow lblRow : List ℚ) : ℚ :=
  rowLossSum rl predRow lblRow * ((if 0 < t then 1 else 0) / norm)

/-- `PointHeadTemplate.get_box_layer_loss` (lines 196-215), as the returned
scalar `point_loss_box`; `rl` is the elementwise kernel of the external
weighted regression loss (modelled from the spec: per-element loss, weighted
per point, summed), `cfgW` is `LOSS_WEIGHTS['point_box_weight']`. -/
def get_box_layer_loss (rl : ℚ → ℚ → ℚ) (cfgW : ℚ)
    (labels : List ℤ) (boxPreds boxLbls : List (List ℚ)) : ℚ :=
  (((labels.zip (boxPreds.zip boxLbls)).map
      (fun x => boxPointTerm rl (clampedPosNorm labels) x.1 x.2.1 x.2.2)).sum) * cfgW

/-- Line 228, `point_cls_preds.max(dim=-1)`: the index of the (first)
maximal entry of a row. -/
def argmaxIdx (xs : List ℚ) : ℕ :=
  (List.range xs.length).foldl
    (fun best i => if xs.getD best 0 < xs.getD i 0 then i else best) 0

/-- `PointHeadTemplate.generate_predicted_boxes` (lines 217-231): decode
each point's box prediction with class index `pred_classes + 1` where
`pred_classes` is the row argmax of the class predictions, and return the
class predictions unchanged.  `decode` is the external
`box_coder.decode_torch`, per-row. -/
def generate_predicted_boxes (decode : List ℚ → Pt → ℕ → List ℚ)
    (points : List Pt) (point_cls_preds point_box_preds : List (List ℚ)) :
    List (List ℚ) × List (List ℚ) :=
  (point_cls_preds,
   (points.zip (point_cls_preds.zip point_box_preds)).map
     (fun x => decode x.2.2 x.1 (argmaxIdx x.2.1 + 1)))

/-- Follows the spec's words (for comparison with `get_cls_layer_loss`):
background and foreground points contribute with weight `1`, ignored points
(label `-1`) with weight `0`; the weighted loss is summed, normalized by
the foreground count clamped below at `1`, and scaled by the configured
weight. -/
def specClsLoss (cl : ℚ → ℚ → ℚ) (num_class : ℕ) (cfgW : ℚ)
    (labels : List ℤ) (preds : List (List ℚ)) : ℚ :=
  (((labels.zip preds).map
      (fun x => rowLossSum cl x.2 (oneHotRow num_class x.1) *
        (if x.1 = -1 then 0 else 1))).sum)
    / max ((posCount labels : ℚ)) 1 * cfgW

/-- Follows the spec's words (for comparison with `get_part_layer_loss`):
binary cross-entropy of the sigmoid-activated predictions against the
targets, summed only over the points with positive label, divided by three
times the foreground count with a minimum denominator of `1`, and scaled by
the configured weight. -/
def specPartLoss (bce : ℚ → ℚ → ℚ) (sig : ℚ → ℚ) (cfgW : ℚ)
    (labels : List ℤ) (partPreds partLbls : List Pt) : ℚ :=
  ((((labels.zip (partPreds.zip partLbls)).filter
        (fun x => decide (0 < x.1))).map
      (fun x => bceRowSum bce sig x.2.1 x.2.2)).sum)
    / (3 * max 1 (posCount labels : ℚ)) * cfgW

/-- Follows the spec's words (for comparison with `clsLabelBall`): the
top-center point of a box, its center shifted along the vertical (y) axis
by half the box height. -/
def specTopCenter (b : Box) : Pt := ⟨b.x, b.y + b.h / 2, b.z⟩

/-- Follows the spec's words: the claimed ball-constraint foreground test —
the point is inside some box and within `radius` of the assigned box's
top-center point. -/
def specBallFg (R : VertRot) (boxes : List Box) (radius : ℚ) (p : Pt) : Bool :=
  fgIgnore R boxes p &&
    decide (distSq (specTopCenter (pyIndex boxes (points_in_boxes_gpu R boxes p))) p
      < radius ^ 2)

/-! ### A store model of the tensor mutations of `assign_stack_targets`

To state the frame effect (the function never writes to its argument
tensors) we mirror the function once more against an explicit store: every
tensor is a cell identified by a natural number, `.new_zeros` /
`torch.cuda.FloatTensor(...).zero_()` / `.clone()` / the fresh result of
`points_in_boxes_gpu` allocate fresh cells, and every in-place update
(`tmp[i, ...] = ...`, `labels[mask] = ...`, `box_centers[:, 2] += ...`)
is a write to the cell it targets.  Reads do not change the store.  The
argument tensors live in cells chosen by the caller; the claim is that the
call leaves every pre-existing cell unchanged. -/

/-- The value held by one tensor cell. -/
inductive TVal where
  | flat : List (ℚ × Pt) → TVal
  | ints : List ℤ → TVal
  | rows : List (List ℚ) → TVal
  | vecs : List Pt → TVal
  | undef : TVal

/-- A store of tensor cells: `next` is the first unallocated cell. -/
structure Heap where
  next : ℕ
  mem : ℕ → TVal

/-- Allocate a fresh cell holding `v`. -/
def halloc (h : Heap) (v : TVal) : ℕ × Heap :=
  (h.next, ⟨h.next + 1, Function.update h.mem h.next v⟩)

/-- Write `v` in place into cell `i`. -/
def hwrite (h : Heap) (i : ℕ) (v : TVal) : Heap :=
  ⟨h.next, Function.update h.mem i v⟩

/-- The rows of the stacked tensor `tmp` after the first `B` iterations of
the loop of lines 64-66: batch index in column 0, coordinates after it. -/
def tmpRows (points : List (List Pt)) (B : ℕ) : List (ℚ × Pt) :=
  ((List.range B).map (fun i => (points.getD i []).map (fun p => ((i : ℚ), p)))).flatten

/-- Lines 121-131 and 133-146 in the store: the box-label and part-label
blocks of one batch element — fresh `_single` tensors are allocated and
written, then scattered into the global tensors at `boxId` / `partId`. -/
def boxPartHeap (R : VertRot) (encode : Box → Pt → List ℚ) (boxes : List Box)
    (fgF : Pt → Bool) (ret_box ret_part : Bool) (boxId partId : Option ℕ)
    (pts : List Pt) (h : Heap) : Heap :=
  let h1 :=
    match boxId with
    | some bId =>
      if ret_box ∧ 0 < pts.countP fgF then
        let a := halloc h (TVal.rows (List.replicate pts.length zeros8))
        let h' := hwrite a.2 a.1 (TVal.rows (boxRowsOf R encode boxes fgF ret_box pts))
        hwrite h' bId (TVal.rows (boxRowsOf R encode boxes fgF ret_box pts))
      else h
    | none => h
  match partId with
  | some pId =>
    if ret_part then
      let a := halloc h1 (TVal.vecs (List.replicate pts.length ⟨0, 0, 0⟩))
      let h' := hwrite a.2 a.1 (TVal.vecs (partRowsOf R boxes fgF ret_part pts))
      hwrite h' pId (TVal.vecs (partRowsOf R boxes fgF ret_part pts))
    else h1
  | none => h1

/-- Lines 79-146 in the store, one iteration of the per-batch loop.  In
ball-constraint mode, line 108 clones the gathered box centers into a fresh
cell and line 109 shifts that clone in place — the write targets the fresh
cell, never `gt_boxes`. -/
def batchHeapStep (R : VertRot) (encode : Box → Pt → List ℚ) (num_class : ℕ)
    (pts : List Pt) (boxes : List Box) (extOpt : Option (List Box))
    (ret_box ret_part set_ignore use_ball : Bool) (radius : ℚ)
    (clsId : ℕ) (boxId partId : Option ℕ) (h : Heap) : Heap :=
  let a1 := halloc h (TVal.ints (List.replicate pts.length 0))
  let lblId := a1.1
  let a2 := halloc a1.2 (TVal.ints (pts.map (points_in_boxes_gpu R boxes)))
  let h2 := a2.2
  if set_ignore then
    match extOpt with
    | none => h2
    | some ext =>
      let a3 := halloc h2 (TVal.ints (pts.map (points_in_boxes_gpu R ext)))
      let h4 := hwrite a3.2 lblId (TVal.ints (pts.map (fun p =>
        if xor (fgIgnore R boxes p) (decide (0 ≤ points_in_boxes_gpu R ext p))
        then -1 else 0)))
      let h5 := hwrite h4 lblId
        (TVal.ints (pts.map (clsLabelIgnore R boxes ext num_class)))
      let h6 := hwrite h5 clsId
        (TVal.ints (pts.map (clsLabelIgnore R boxes ext num_class)))
      boxPartHeap R encode boxes (fgIgnore R boxes) ret_box ret_part boxId partId pts h6
  else if use_ball then
    let a3 := halloc h2 (TVal.vecs (pts.map (fun p =>
      let b := pyIndex boxes (points_in_boxes_gpu R boxes p); ⟨b.x, b.y, b.z⟩)))
    let cenId := a3.1
    let h4 := hwrite a3.2 cenId (TVal.vecs (pts.map (fun p =>
      shiftedCenter (pyIndex boxes (points_in_boxes_gpu R boxes p)))))
    let h5 := hwrite h4 lblId
      (TVal.ints (pts.map (clsLabelBall R boxes num_class radius)))
    let h6 := hwrite h5 clsId
      (TVal.ints (pts.map (clsLabelBall R boxes num_class radius)))
    boxPartHeap R encode boxes (fgBall R boxes radius) ret_box ret_part boxId partId pts h6
  else h2

/-- `assign_stack_targets` mirrored against the store: line 63 allocates
the stacked tensor `tmp` fresh, lines 64-66 write the argument points (with
batch indices) into it, line 73 stops on misconfiguration, lines 76-78
allocate the global label tensors fresh, and the per-batch loop writes into
them.  The cells holding the arguments `points`, `gt_boxes` and
`extend_gt_boxes` are only ever read. -/
def assignStackTargetsHeap (R : VertRot) (encode : Box → Pt → List ℚ) (num_class : ℕ)
    (points : List (List Pt)) (gt_boxes : List (List Box))
    (extend_gt_boxes : Option (List (List Box)))
    (ret_box_labels ret_part_labels set_ignore_flag use_ball_constraint : Bool)
    (central_radius : ℚ) (h0 : Heap) : Heap :=
  let B := gt_boxes.length
  let a1 := halloc h0 (TVal.flat (List.replicate (tmpRows points B).length (0, ⟨0, 0, 0⟩)))
  let tmpId := a1.1
  let h2 := (List.range B).foldl
    (fun h i => hwrite h tmpId (TVal.flat (tmpRows points (i + 1)))) a1.2
  if set_ignore_flag == use_ball_constraint then h2
  else
    let a3 := halloc h2 (TVal.ints (List.replicate (tmpRows points B).length 0))
    let clsId := a3.1
    let ab :=
      if ret_box_labels then
        let a := halloc a3.2 (TVal.rows (List.replicate (tmpRows points B).length zeros8))
        (some a.1, a.2)
      else (none, a3.2)
    let ap :=
      if ret_part_labels then
        let a := halloc ab.2 (TVal.vecs (List.replicate (tmpRows points B).length ⟨0, 0, 0⟩))
        (some a.1, a.2)
      else (none, ab.2)
    (List.range B).foldl
      (fun h k => batchHeapStep R encode num_class (points.getD k []) (gt_boxes.getD k [])
        (extend_gt_boxes.map (fun e => e.getD k []))
        ret_box_labels ret_part_labels set_ignore_flag use_ball_constraint central_radius
        clsId ab.1 ap.1 h)
      ap.2

/-! ## Shared lemmas -/

/-- The point-in-boxes index is nonnegative exactly when some box of the
list contains the point. -/
lemma points_in_boxes_nonneg_iff (R : VertRot) (p : Pt) :
    ∀ boxes : List Box,
      0 ≤ points_in_boxes_gpu R boxes p ↔ ∃ b ∈ boxes, inBox R b p = true := by
  intro boxes
  induction boxes with
  | nil => simp [points_in_boxes_gpu]
  | cons b bs ih =>
    by_cases hb : inBox R b p
    · simp [points_in_boxes_gpu, hb]
    · simp only [points_in_boxes_gpu, hb, if_false]
      by_cases hr : points_in_boxes_gpu R bs p < 0
      · simp only [hr, if_true]
        constructor
        · intro h; exact absurd h (by decide)
        · rintro ⟨c, hc, hcin⟩
          rcases List.mem_cons.mp hc with rfl | hcs
          · exact absurd hcin hb
          · exact absurd (ih.mpr ⟨c, hcs, hcin⟩) (by omega)
      · simp only [hr, if_false]
        constructor
        · intro _
          rcases ih.mp (by omega) with ⟨c, hcs, hcin⟩
          exact ⟨c, List.mem_cons_of_mem _ hcs, hcin⟩
        · intro _; omega

/-- `fgIgnore` holds exactly when some ground-truth box contains the point. -/
lemma fgIgnore_iff (R : VertRot) (boxes : List Box) (p : Pt) :
    fgIgnore R boxes p = true ↔ ∃ b ∈ boxes, inBox R b p = true := by
  simpa [fgIgnore] using points_in_boxes_nonneg_iff R p boxes

/-- A `Forall₂` relation yields, for each member of the left list, a
related member of the right list. -/
lemma forall2_mem_left {α β : Type} {r : α → β → Prop} :
    ∀ {l1 : List α} {l2 : List β}, List.Forall₂ r l1 l2 → ∀ {a : α}, a ∈ l1 →
      ∃ b ∈ l2, r a b := by
  intro l1 l2 h
  induction h with
  | nil => intro a ha; cases ha
  | cons hr _ ih =>
    intro a ha
    rcases List.mem_cons.mp ha with rfl | ha'
    · exact ⟨_, List.mem_cons_self _ _, hr⟩
    · rcases ih ha' with ⟨b, hb, hrb⟩
      exact ⟨b, List.mem_cons_of_mem _ hb, hrb⟩

/-- Dividing each summand by a constant divides the sum. -/
lemma sum_map_div {α : Type} (l : List α) (f : α → ℚ) (d : ℚ) :
    (l.map (fun a => f a / d)).sum = (l.map f).sum / d := by
  induction l with
  | nil => simp
  | cons a l ih => simp [ih, add_div]

/-- Summing over a filtered list equals summing the masked terms. -/
lemma sum_filter_eq_sum_ite {α : Type} (l : List α) (p : α → Bool) (f : α → ℚ) :
    ((l.filter p).map f).sum = (l.map (fun a => if p a then f a else 0)).sum := by
  induction l with
  | nil => simp
  | cons a l ih =>
    by_cases hp : p a
    · simp [List.filter_cons, hp, ih]
    · simp [List.filter_cons, hp, ih]

/-- `forBatches` of an everywhere-successful body collects the successes. -/
lemma forBatches_ok {β : Type} (f : ℕ → Except AssignErr β) (g : ℕ → β) :
    ∀ ks : List ℕ, (∀ k ∈ ks, f k = Except.ok (g k)) →
      forBatches f ks = Except.ok (ks.map g) := by
  intro ks
  induction ks with
  | nil => intro _; rfl
  | cons k ks ih =>
    intro h
    have hk := h k (List.mem_cons_self _ _)
    have hks := ih (fun j hj => h j (List.mem_cons_of_mem _ hj))
    simp [forBatches, hk, hks]

/-- `forBatches` can only fail with an error its body can produce. -/
lemma forBatches_error_mem {β : Type} (f : ℕ → Except AssignErr β) (e : AssignErr) :
    ∀ ks : List ℕ, forBatches f ks = Except.error e → ∃ k ∈ ks, f k = Except.error e := by
  intro ks
  induction ks with
  | nil => intro h; cases h
  | cons k ks ih =>
    intro h
    cases hk : f k with
    | error e' =>
      rw [forBatches, hk] at h
      cases h
      exact ⟨k, List.mem_cons_self _ _, hk⟩
    | ok b =>
      rw [forBatches, hk] at h
      cases hks : forBatches f ks with
      | error e' =>
        rw [hks] at h
        cases h
        rcases ih hks with ⟨j, hj, hfj⟩
        exact ⟨j, List.mem_cons_of_mem _ hj, hfj⟩
      | ok bs => rw [hks] at h; cases h

/-- `assignSingle` never produces the configuration error: the
`assert` of line 73 is checked before the per-batch loop runs. -/
lemma assignSingle_ne_config (R : VertRot) (encode : Box → Pt → List ℚ)
    (num_class : ℕ) (pts : List Pt) (boxes : List Box) (extOpt : Option (List Box))
    (ret_box ret_part set_ignore use_ball : Bool) (radius : ℚ) :
    assignSingle R encode num_class pts boxes extOpt
      ret_box ret_part set_ignore use_ball radius ≠
      Except.error AssignErr.configError := by
  unfold assignSingle
  cases set_ignore
  · cases use_ball <;> simp
  · cases extOpt <;> simp

/-- In ignore-flag mode with extended boxes supplied, one batch iteration
succeeds with the per-point maps. -/
lemma assignSingle_ignore_eq (R : VertRot) (encode : Box → Pt → List ℚ)
    (num_class : ℕ) (pts : List Pt) (boxes ext : List Box)
    (ret_box ret_part use_ball : Bool) (radius : ℚ) :
    assignSingle R encode num_class pts boxes (some ext)
      ret_box ret_part true use_ball radius =
      Except.ok (pts.map (clsLabelIgnore R boxes ext num_class),
        boxRowsOf R encode boxes (fgIgnore R boxes) ret_box pts,
        partRowsOf R boxes (fgIgnore R boxes) ret_part pts) := rfl

/-- In ignore-flag mode with extended boxes supplied,
`assign_stack_targets` succeeds and its classification labels are the
concatenation over batch elements of the per-point labels. -/
lemma assign_ignore_cls_structure (R : VertRot) (encode : Box → Pt → List ℚ)
    (num_class : ℕ) (points : List (List Pt)) (gt_boxes : List (List Box))
    (exts : List (List Box)) (ret_box ret_part : Bool) (radius : ℚ)
    (d : TargetsDict)
    (hd : assign_stack_targets R encode num_class points gt_boxes (some exts)
      ret_box ret_part true false radius = Except.ok d) :
    d.point_cls_labels =
      ((List.range gt_boxes.length).map (fun k =>
        (points.getD k []).map
          (clsLabelIgnore R (gt_boxes.getD k []) (exts.getD k []) num_class))).flatten := by
  unfold assign_stack_targets at hd
  rw [show (true == false) = false from rfl] at hd
  simp only [Bool.false_eq_true, if_false] at hd
  rw [forBatches_ok _ (fun k =>
      ((points.getD k []).map
          (clsLabelIgnore R (gt_boxes.getD k []) (exts.getD k []) num_class),
        boxRowsOf R encode (gt_boxes.getD k [])
          (fgIgnore R (gt_boxes.getD k [])) ret_box (points.getD k []),
        partRowsOf R (gt_boxes.getD k [])
          (fgIgnore R (gt_boxes.getD k [])) ret_part (points.getD k [])))
      _ (fun k _ => by simp [assignSingle_ignore_eq])] at hd
  cases hd
  simp only [List.map_map]
  rfl

/-- Looking up matching positions of two zipped lists. -/
lemma getElem?_zip_eq_some {α β : Type} :
    ∀ (l1 : List α) (l2 : List β) (i : ℕ) (a : α) (b : β),
      l1[i]? = some a → l2[i]? = some b → (l1.zip l2)[i]? = some (a, b) := by
  intro l1
  induction l1 with
  | nil => intro l2 i a b h _; simp at h
  | cons x l1 ih =>
    intro l2 i a b h1 h2
    cases l2 with
    | nil => simp at h2
    | cons y l2 =>
      cases i with
      | zero =>
        simp only [List.getElem?_cons_zero, Option.some_inj] at h1 h2
        simp [List.zip_cons_cons, h1, h2]
      | succ n =>
        simp only [List.getElem?_cons_succ] at h1 h2
        simpa [List.zip_cons_cons] using ih l2 n a b h1 h2

/-! ## Claim theorems -/

/-- C4: every point with classification label `-1` (the halo between a box
and its enlargement) contributes zero to each of the three losses: its
raw classification weight is `0`, so its classification term vanishes; the
positive-label mask excludes it from the part loss; and its box-regression
weight is `0`, so its regression term vanishes. -/
theorem ignored_label_zero_contribution
    (cl bce rl : ℚ → ℚ → ℚ) (sig : ℚ → ℚ) (num_class : ℕ) (norm : ℚ)
    (labels : List ℤ) (predRow lblRow : List ℚ) (pred lbl : Pt) :
    clsWeightRaw (-1) = 0 ∧
    clsPointTerm cl num_class norm (-1) predRow = 0 ∧
    partPointTerm bce sig (-1) pred lbl = 0 ∧
    regWeight labels (-1) = 0 ∧
    boxPointTerm rl norm (-1) predRow lblRow = 0 := by
  refine ⟨by norm_num [clsWeightRaw], ?_, ?_, ?_, ?_⟩
  · norm_num [clsPointTerm, clsWeightRaw]
  · norm_num [partPointTerm]
  · norm_num [regWeight]
  · norm_num [boxPointTerm]

/-- C5: the part-offset loss equals the binary cross-entropy of the
sigmoid-activated predictions against the targets, summed only over the
points with positive classification label, divided by three times the
foreground count with a minimum denominator of `1`, and multiplied by the
configured part-loss weight. -/
theorem part_loss_eq_spec (bce : ℚ → ℚ → ℚ) (sig : ℚ → ℚ) (cfgW : ℚ)
    (labels : List ℤ) (partPreds partLbls : List Pt) :
    get_part_layer_loss bce sig cfgW labels partPreds partLbls =
      specPartLoss bce sig cfgW labels partPreds partLbls := by
  unfold get_part_layer_loss specPartLoss
  rw [sum_filter_eq_sum_ite]
  simp only [partPointTerm, mul_ite, mul_one, mul_zero, decide_eq_true_eq]
  push_cast [Nat.cast_max]
  ring

/-- C9: `generate_predicted_boxes` returns the classification predictions
unchanged, and decodes each point's box prediction with class index equal
to the row argmax of the class predictions plus one, whatever the box
coder's decoding convention is. -/
theorem generate_predicted_boxes_spec (decode : List ℚ → Pt → ℕ → List ℚ)
    (points : List Pt) (cp bp : List (List ℚ)) :
    (generate_predicted_boxes decode points cp bp).1 = cp ∧
    ∀ (i : ℕ) (pt : Pt) (cRow bRow : List ℚ),
      points[i]? = some pt → cp[i]? = some cRow → bp[i]? = some bRow →
      (generate_predicted_boxes decode points cp bp).2[i]? =
        some (decode bRow pt (argmaxIdx cRow + 1)) := by
  refine ⟨rfl, ?_⟩
  intro i pt cRow bRow hp hc hb
  show ((points.zip (cp.zip bp)).map
      (fun x => decode x.2.2 x.1 (argmaxIdx x.2.1 + 1)))[i]? = _
  rw [List.getElem?_map,
    getElem?_zip_eq_some points _ i pt (cRow, bRow) hp
      (getElem?_zip_eq_some cp bp i cRow bRow hc hb)]
  rfl

/-- Witness for C9: a concrete decode, point and prediction rows. -/
theorem generate_predicted_boxes_spec_witness :
    (generate_predicted_boxes (fun b p c => b ++ [p.x, (c : ℚ)]) [⟨1, 2, 3⟩]
        [[5, 9]] [[7]]).1 = [[5, 9]] ∧
    (generate_predicted_boxes (fun b p c => b ++ [p.x, (c : ℚ)]) [⟨1, 2, 3⟩]
        [[5, 9]] [[7]]).2[0]? =
      some ((fun (b : List ℚ) (p : Pt) (c : ℕ) => b ++ [p.x, (c : ℚ)]) [7] ⟨1, 2, 3⟩
        (argmaxIdx [5, 9] + 1)) :=
  ⟨(generate_predicted_boxes_spec _ [⟨1, 2, 3⟩] [[5, 9]] [[7]]).1,
   (generate_predicted_boxes_spec _ [⟨1, 2, 3⟩] [[5, 9]] [[7]]).2 0 ⟨1, 2, 3⟩ [5, 9] [7]
     rfl rfl rfl⟩

/-- C3: in the classification loss, background and foreground points have
raw weight `1` and ignored points raw weight `0`; the normalizer is the
batch foreground count clamped below at `1` (so it is `1` when there are no
foreground points); and on labels taking only the values `-1`, `0` or
positive the loss equals the spec's weighted sum divided by the clamped
count and scaled by the configured weight. -/
theorem cls_loss_weights_and_normalization
    (cl : ℚ → ℚ → ℚ) (num_class : ℕ) (cfgW : ℚ)
    (labels : List ℤ) (preds : List (List ℚ)) :
    (clsWeightRaw 0 = 1 ∧ (∀ t : ℤ, 0 < t → clsWeightRaw t = 1) ∧
      clsWeightRaw (-1) = 0) ∧
    (posCount labels = 0 → clampedPosNorm labels = 1) ∧
    ((∀ t ∈ labels, t = -1 ∨ 0 ≤ t) →
      get_cls_layer_loss cl num_class cfgW labels preds =
        specClsLoss cl num_class cfgW labels preds) := by
  refine ⟨⟨by norm_num [clsWeightRaw], ?_, by norm_num [clsWeightRaw]⟩, ?_, ?_⟩
  · intro t ht
    unfold clsWeightRaw
    rw [if_neg (by omega), if_pos ht]
    norm_num
  · intro h
    unfold clampedPosNorm
    rw [h]
    norm_num
  · intro h
    unfold get_cls_layer_loss specClsLoss
    have hmap : (labels.zip preds).map
        (fun x => clsPointTerm cl num_class (clampedPosNorm labels) x.1 x.2) =
        (labels.zip preds).map
          (fun x => (rowLossSum cl x.2 (oneHotRow num_class x.1) *
            (if x.1 = -1 then 0 else 1)) / clampedPosNorm labels) := by
      apply List.map_congr_left
      intro x hx
      have hx1 : x.1 ∈ labels := (List.of_mem_zip hx).1
      have hw : clsWeightRaw x.1 = (if x.1 = -1 then 0 else 1) := by
        rcases h x.1 hx1 with h1 | h1
        · rw [h1]; norm_num [clsWeightRaw]
        · rcases eq_or_lt_of_le h1 with h0 | h0
          · rw [← h0]; norm_num [clsWeightRaw]
          · unfold clsWeightRaw
            rw [if_neg (by omega), if_pos h0, if_neg (by omega)]
            norm_num
      rw [clsPointTerm, hw, mul_div_assoc]
    rw [hmap, sum_map_div]
    rfl

/-- Witness for C3: concrete kernels, labels and predictions. -/
theorem cls_loss_weights_witness :
    clsWeightRaw 1 = 1 ∧
    clampedPosNorm [(-1 : ℤ)] = 1 ∧
    get_cls_layer_loss (fun a b => a + b) 1 2 [1, 0, -1] [[2], [3], [4]] =
      specClsLoss (fun a b => a + b) 1 2 [1, 0, -1] [[2], [3], [4]] :=
  ⟨(cls_loss_weights_and_normalization (fun a b => a + b) 1 2 [] []).1.2.1 1 (by decide),
   (cls_loss_weights_and_normalization (fun a b => a + b) 1 2 [(-1 : ℤ)] []).2.1 (by decide),
   (cls_loss_weights_and_normalization (fun a b => a + b) 1 2 [1, 0, -1]
      [[2], [3], [4]]).2.2 (by decide)⟩

/-- C6: `assign_stack_targets` fails with the configuration error exactly
when `set_ignore_flag` equals `use_ball_constraint` (both modes selected or
neither); with exactly one mode selected the configuration error is never
raised. -/
theorem mode_exclusivity_assert
    (R : VertRot) (encode : Box → Pt → List ℚ) (num_class : ℕ)
    (points : List (List Pt)) (gt_boxes : List (List Box))
    (extend_gt_boxes : Option (List (List Box)))
    (ret_box ret_part set_ignore use_ball : Bool) (radius : ℚ) :
    (set_ignore = use_ball →
      assign_stack_targets R encode num_class points gt_boxes extend_gt_boxes
        ret_box ret_part set_ignore use_ball radius =
        Except.error AssignErr.configError) ∧
    (set_ignore ≠ use_ball →
      assign_stack_targets R encode num_class points gt_boxes extend_gt_boxes
        ret_box ret_part set_ignore use_ball radius ≠
        Except.error AssignErr.configError) := by
  constructor
  · intro h
    subst h
    unfold assign_stack_targets
    rw [if_pos (by simp)]
  · intro h
    unfold assign_stack_targets
    rw [if_neg (by simp [h])]
    cases hfb : forBatches (fun k =>
        assignSingle R encode num_class (points.getD k []) (gt_boxes.getD k [])
          (extend_gt_boxes.map (fun e => e.getD k []))
          ret_box ret_part set_ignore use_ball radius)
        (List.range gt_boxes.length) with
    | error e =>
      intro hcontra
      have he : e = AssignErr.configError := by
        injection hcontra
      subst he
      rcases forBatches_error_mem _ _ _ hfb with ⟨k, _, hk⟩
      exact assignSingle_ne_config R encode num_class (points.getD k [])
        (gt_boxes.getD k []) (extend_gt_boxes.map (fun e => e.getD k []))
        ret_box ret_part set_ignore use_ball radius hk
    | ok rs => simp

/-- Witness for C6: both flags set raises the configuration error; exactly
one flag set does not. -/
theorem mode_exclusivity_assert_witness :
    assign_stack_targets trivRot (fun _ _ => []) 1 [] [] none
      false false true true 0 = Except.error AssignErr.configError ∧
    assign_stack_targets trivRot (fun _ _ => []) 1 [] [] none
      false false true false 0 ≠ Except.error AssignErr.configError :=
  ⟨(mode_exclusivity_assert trivRot (fun _ _ => []) 1 [] [] none
      false false true true 0).1 rfl,
   (mode_exclusivity_assert trivRot (fun _ _ => []) 1 [] [] none
      false false true false 0).2 (by decide)⟩

/-- C7: with box-regression labels requested, a batch element with no
foreground points keeps all its box-label rows zero (the encoding step is
skipped), and when foreground points exist exactly the foreground rows
receive the box coder's encodings while the other rows stay zero; the
rows of one batch iteration are exactly `boxRowsOf`. -/
theorem box_labels_fg_only
    (R : VertRot) (encode : Box → Pt → List ℚ) (boxes : List Box)
    (fgF : Pt → Bool) (pts : List Pt) :
    (pts.countP fgF = 0 →
      boxRowsOf R encode boxes fgF true pts = List.replicate pts.length zeros8) ∧
    (∀ (i : ℕ) (p : Pt), pts[i]? = some p →
      (boxRowsOf R encode boxes fgF true pts)[i]? =
        some (if fgF p then encode (pyIndex boxes (points_in_boxes_gpu R boxes p)) p
          else zeros8)) ∧
    (∀ (num_class : ℕ) (ext : List Box) (rP : Bool) (rad : ℚ)
        (r : List ℤ × List (List ℚ) × List Pt),
      assignSingle R encode num_class pts boxes (some ext) true rP true false rad =
        Except.ok r →
      r.2.1 = boxRowsOf R encode boxes (fgIgnore R boxes) true pts) := by
  refine ⟨?_, ?_, ?_⟩
  · intro h
    unfold boxRowsOf
    rw [if_neg (by simp [h])]
  · intro i p hp
    have hi : i < pts.length := by
      by_contra hlt
      rw [List.getElem?_eq_none (by omega)] at hp
      cases hp
    by_cases hc : 0 < pts.countP fgF
    · unfold boxRowsOf
      rw [if_pos ⟨rfl, hc⟩, List.getElem?_map, hp]
      rfl
    · have hz : pts.countP fgF = 0 := by omega
      have hfgp : fgF p = false := by
        have hall := List.countP_eq_zero.mp hz
        have hmem : p ∈ pts := by
          have := List.getElem?_eq_some.mp hp
          rcases this with ⟨hlt, hget⟩
          exact hget ▸ List.getElem_mem hlt
        simpa using hall p hmem
      unfold boxRowsOf
      rw [if_neg (by simp [hz])]
      simp [List.getElem?_replicate, hi, hfgp]
  · intro num_class ext rP rad r hr
    rw [assignSingle_ignore_eq] at hr
    cases hr
    rfl

/-- Witness for C7: one point contained in no box — the box-label row
stays zero. -/
theorem box_labels_fg_only_witness :
    boxRowsOf trivRot (fun _ _ => List.replicate 8 1) [] (fgIgnore trivRot [])
        true [⟨5, 5, 5⟩] = List.replicate 1 zeros8 ∧
    (boxRowsOf trivRot (fun _ _ => List.replicate 8 1) [] (fgIgnore trivRot [])
        true [⟨5, 5, 5⟩])[0]? =
      some (if fgIgnore trivRot [] ⟨5, 5, 5⟩ then
        (fun (_ : Box) (_ : Pt) => List.replicate 8 (1 : ℚ)) (pyIndex []
          (points_in_boxes_gpu trivRot [] ⟨5, 5, 5⟩)) ⟨5, 5, 5⟩ else zeros8) :=
  ⟨(box_labels_fg_only trivRot (fun _ _ => List.replicate 8 1) []
      (fgIgnore trivRot []) [⟨5, 5, 5⟩]).1 (by decide),
   (box_labels_fg_only trivRot (fun _ _ => List.replicate 8 1) []
      (fgIgnore trivRot []) [⟨5, 5, 5⟩]).2.1 0 ⟨5, 5, 5⟩ rfl⟩

/-- C1 (amended): in ignore-flag mode with a single foreground class, the
label of a point is positive exactly when some ground-truth box of its
batch element contains it, `-1` exactly when some extended box contains it
but no ground-truth box does, and `0` exactly when no extended box
contains it — given extended boxes that contain their corresponding
ground-truth boxes; and the classification labels of
`assign_stack_targets` are exactly these per-point labels, batch by batch. -/
theorem ignore_mode_label_trichotomy
    (R : VertRot) (boxes ext : List Box) (p : Pt)
    (hcont : List.Forall₂
      (fun bg be => ∀ q : Pt, inBox R bg q = true → inBox R be q = true) boxes ext) :
    (0 < clsLabelIgnore R boxes ext 1 p ↔ ∃ b ∈ boxes, inBox R b p = true) ∧
    (clsLabelIgnore R boxes ext 1 p = -1 ↔
      ((∃ b ∈ ext, inBox R b p = true) ∧ ¬∃ b ∈ boxes, inBox R b p = true)) ∧
    (clsLabelIgnore R boxes ext 1 p = 0 ↔ ¬∃ b ∈ ext, inBox R b p = true) ∧
    (∀ (encode : Box → Pt → List ℚ) (points : List (List Pt))
        (gts exts : List (List Box)) (rB rP : Bool) (rad : ℚ) (d : TargetsDict),
      assign_stack_targets R encode 1 points gts (some exts) rB rP true false rad =
        Except.ok d →
      d.point_cls_labels = ((List.range gts.length).map (fun k =>
        (points.getD k []).map
          (clsLabelIgnore R (gts.getD k []) (exts.getD k []) 1))).flatten) := by
  have hfgiff := fgIgnore_iff R boxes p
  have hextiff := points_in_boxes_nonneg_iff R p ext
  refine ?_
  by_cases hfg : fgIgnore R boxes p = true
  · have hlab : clsLabelIgnore R boxes ext 1 p = 1 := by
      simp [clsLabelIgnore, hfg, fgClsValue]
    have hexists := hfgiff.mp hfg
    have hextex : ∃ b ∈ ext, inBox R b p = true := by
      rcases hexists with ⟨b, hbmem, hbin⟩
      rcases forall2_mem_left hcont hbmem with ⟨be, hbe, hrel⟩
      exact ⟨be, hbe, hrel p hbin⟩
    refine ⟨?_, ?_, ?_, ?_⟩
    · rw [hlab]
      exact ⟨fun _ => hexists, fun _ => by norm_num⟩
    · rw [hlab]
      exact ⟨fun h => absurd h (by decide), fun ⟨_, hne⟩ => absurd hexists hne⟩
    · rw [hlab]
      exact ⟨fun h => absurd h (by decide), fun hne => absurd hextex hne⟩
    · intro encode points gts exts rB rP rad d hd
      exact assign_ignore_cls_structure R encode 1 points gts exts rB rP rad d hd
  · have hfgf : fgIgnore R boxes p = false := by
      revert hfg; cases fgIgnore R boxes p <;> simp
    have hnoex : ¬∃ b ∈ boxes, inBox R b p = true := fun hx => hfg (hfgiff.mpr hx)
    by_cases hext : 0 ≤ points_in_boxes_gpu R ext p
    · have hlab : clsLabelIgnore R boxes ext 1 p = -1 := by
        simp [clsLabelIgnore, hfgf, hext]
      have hextex := hextiff.mp hext
      refine ⟨?_, ?_, ?_, ?_⟩
      · rw [hlab]
        exact ⟨fun h => absurd h (by decide), fun hx => absurd hx hnoex⟩
      · rw [hlab]
        exact ⟨fun _ => ⟨hextex, hnoex⟩, fun _ => rfl⟩
      · rw [hlab]
        exact ⟨fun h => absurd h (by decide), fun hne => absurd hextex hne⟩
      · intro encode points gts exts rB rP rad d hd
        exact assign_ignore_cls_structure R encode 1 points gts exts rB rP rad d hd
    · have hlab : clsLabelIgnore R boxes ext 1 p = 0 := by
        simp [clsLabelIgnore, hfgf, hext]
      have hnoext : ¬∃ b ∈ ext, inBox R b p = true := fun hx => hext (hextiff.mpr hx)
      refine ⟨?_, ?_, ?_, ?_⟩
      · rw [hlab]
        exact ⟨fun h => absurd h (by decide), fun hx => absurd hx hnoex⟩
      · rw [hlab]
        exact ⟨fun h => absurd h (by decide), fun ⟨hx, _⟩ => absurd hx hnoext⟩
      · rw [hlab]
        exact ⟨fun _ => hnoext, fun _ => rfl⟩
      · intro encode points gts exts rB rP rad d hd
        exact assign_ignore_cls_structure R encode 1 points gts exts rB rP rad d hd

/-- Witness for C1: a unit-style box as both ground-truth and extended box,
point at the center. -/
theorem ignore_mode_label_trichotomy_witness :
    (0 < clsLabelIgnore trivRot [⟨0, 0, 0, 2, 2, 2, 0⟩] [⟨0, 0, 0, 2, 2, 2, 0⟩] 1 ⟨0, 0, 0⟩ ↔
      ∃ b ∈ [(⟨0, 0, 0, 2, 2, 2, 0⟩ : Box)], inBox trivRot b ⟨0, 0, 0⟩ = true) ∧
    (clsLabelIgnore trivRot [⟨0, 0, 0, 2, 2, 2, 0⟩] [⟨0, 0, 0, 2, 2, 2, 0⟩] 1 ⟨0, 0, 0⟩ = 0 ↔
      ¬∃ b ∈ [(⟨0, 0, 0, 2, 2, 2, 0⟩ : Box)], inBox trivRot b ⟨0, 0, 0⟩ = true) :=
  ⟨(ignore_mode_label_trichotomy trivRot [⟨0, 0, 0, 2, 2, 2, 0⟩]
      [⟨0, 0, 0, 2, 2, 2, 0⟩] ⟨0, 0, 0⟩
      (List.Forall₂.cons (fun _ h => h) List.Forall₂.nil)).1,
   (ignore_mode_label_trichotomy trivRot [⟨0, 0, 0, 2, 2, 2, 0⟩]
      [⟨0, 0, 0, 2, 2, 2, 0⟩] ⟨0, 0, 0⟩
      (List.Forall₂.cons (fun _ h => h) List.Forall₂.nil)).2.2.1⟩

/-- Counterexample to C1 as stated: with two classes, the code writes
`gt_boxes[:, -1].long()` — the truncated heading of a 7-column box — as
the label, so a point inside a ground-truth box (here with heading `0`)
gets the non-positive label `0` in ignore-flag mode. -/
theorem ignore_mode_multiclass_counterexample :
    inBox trivRot ⟨0, 0, 0, 2, 2, 2, 0⟩ ⟨0, 0, 0⟩ = true ∧
    ¬(0 < clsLabelIgnore trivRot [⟨0, 0, 0, 2, 2, 2, 0⟩]
        [⟨0, 0, 0, 2, 2, 2, 0⟩] 2 ⟨0, 0, 0⟩) ∧
    assign_stack_targets trivRot (fun _ _ => []) 2 [[⟨0, 0, 0⟩]]
      [[⟨0, 0, 0, 2, 2, 2, 0⟩]] (some [[⟨0, 0, 0, 2, 2, 2, 0⟩]])
      false false true false 0 = Except.ok ⟨[0], none, none⟩ := by
  have hin : inBox trivRot ⟨0, 0, 0, 2, 2, 2, 0⟩ ⟨0, 0, 0⟩ = true := by
    norm_num [inBox, localCoords, rotate_points_along_y, trivRot, Bool.and_eq_true,
      decide_eq_true_eq]
  refine ⟨hin, ?_⟩
  have hidx : points_in_boxes_gpu trivRot [⟨0, 0, 0, 2, 2, 2, 0⟩] ⟨0, 0, 0⟩ = 0 := by
    simp [points_in_boxes_gpu, hin]
  have hfg : fgIgnore trivRot [⟨0, 0, 0, 2, 2, 2, 0⟩] ⟨0, 0, 0⟩ = true := by
    simp [fgIgnore, hidx]
  have hval : fgClsValue [⟨0, 0, 0, 2, 2, 2, 0⟩] 2 trivRot ⟨0, 0, 0⟩ = 0 := by
    rw [fgClsValue, if_neg (by norm_num), hidx]
    norm_num [pyIndex, pyLong]
  have hlab : clsLabelIgnore trivRot [⟨0, 0, 0, 2, 2, 2, 0⟩]
      [⟨0, 0, 0, 2, 2, 2, 0⟩] 2 ⟨0, 0, 0⟩ = 0 := by
    simp [clsLabelIgnore, hfg, hval]
  refine ⟨by rw [hlab]; norm_num, ?_⟩
  have hassign : assign_stack_targets trivRot (fun _ _ => []) 2 [[⟨0, 0, 0⟩]]
      [[⟨0, 0, 0, 2, 2, 2, 0⟩]] (some [[⟨0, 0, 0, 2, 2, 2, 0⟩]])
      false false true false 0 =
      Except.ok ⟨[clsLabelIgnore trivRot [⟨0, 0, 0, 2, 2, 2, 0⟩]
        [⟨0, 0, 0, 2, 2, 2, 0⟩] 2 ⟨0, 0, 0⟩], none, none⟩ := rfl
  rw [hassign, hlab]

/-- A coordinate strictly inside a centered extent, normalized by the
extent and offset by one half, lands in the unit interval. -/
lemma unit_interval_of_strict (t d : ℚ) (h : |t| < d / 2) :
    0 ≤ t / d + 1 / 2 ∧ t / d + 1 / 2 ≤ 1 := by
  have hd : 0 < d := by
    have h0 : (0 : ℚ) ≤ |t| := abs_nonneg t
    linarith
  rcases abs_lt.mp h with ⟨h1, h2⟩
  constructor
  · have hle : -(1 / 2) ≤ t / d := (le_div_iff₀ hd).mpr (by linarith)
    linarith
  · have hle : t / d ≤ 1 / 2 := (div_le_iff₀ hd).mpr (by linarith)
    linarith

/-- C2: when part labels are requested, each point's part-label row is the
point in its assigned box's local frame (center subtracted, rotated by the
negated heading about the vertical axis), divided by the box extents
ordered `(l, h, w)` and offset by `1/2` — at foreground points — and zero
at non-foreground points; a part label of a point strictly inside its
assigned box lies in the unit cube; and the rows of one batch iteration
are exactly `partRowsOf`. -/
theorem part_labels_formula_and_range
    (R : VertRot) (boxes : List Box) (fgF : Pt → Bool) (pts : List Pt) :
    (∀ (i : ℕ) (p : Pt), pts[i]? = some p →
      (partRowsOf R boxes fgF true pts)[i]? =
        some (if fgF p then
          partLabelOf R (pyIndex boxes (points_in_boxes_gpu R boxes p)) p
          else ⟨0, 0, 0⟩)) ∧
    (∀ (b : Box) (p : Pt), strictlyInside R b p →
      0 ≤ (partLabelOf R b p).x ∧ (partLabelOf R b p).x ≤ 1 ∧
      0 ≤ (partLabelOf R b p).y ∧ (partLabelOf R b p).y ≤ 1 ∧
      0 ≤ (partLabelOf R b p).z ∧ (partLabelOf R b p).z ≤ 1) ∧
    (∀ (encode : Box → Pt → List ℚ) (num_class : ℕ) (ext : List Box)
        (rB : Bool) (rad : ℚ) (r : List ℤ × List (List ℚ) × List Pt),
      assignSingle R encode num_class pts boxes (some ext) rB true true false rad =
        Except.ok r →
      r.2.2 = partRowsOf R boxes (fgIgnore R boxes) true pts) := by
  refine ⟨?_, ?_, ?_⟩
  · intro i p hp
    unfold partRowsOf
    rw [if_pos rfl, List.getElem?_map, hp]
    rfl
  · intro b p hs
    rcases hs with ⟨hx, hy, hz⟩
    have hxb := unit_interval_of_strict (localCoords R b p).x b.l hx
    have hyb := unit_interval_of_strict (localCoords R b p).y b.h hy
    have hzb := unit_interval_of_strict (localCoords R b p).z b.w hz
    exact ⟨hxb.1, hxb.2, hyb.1, hyb.2, hzb.1, hzb.2⟩
  · intro encode num_class ext rB rad r hr
    rw [assignSingle_ignore_eq] at hr
    cases hr
    rfl

/-- Witness for C2: a point at the center of a box of extents two. -/
theorem part_labels_formula_and_range_witness :
    ((partRowsOf trivRot [⟨0, 0, 0, 2, 2, 2, 0⟩]
        (fgIgnore trivRot [⟨0, 0, 0, 2, 2, 2, 0⟩]) true [⟨0, 0, 0⟩])[0]? =
      some (if fgIgnore trivRot [⟨0, 0, 0, 2, 2, 2, 0⟩] ⟨0, 0, 0⟩ then
        partLabelOf trivRot (pyIndex [⟨0, 0, 0, 2, 2, 2, 0⟩]
          (points_in_boxes_gpu trivRot [⟨0, 0, 0, 2, 2, 2, 0⟩] ⟨0, 0, 0⟩)) ⟨0, 0, 0⟩
        else ⟨0, 0, 0⟩)) ∧
    (0 ≤ (partLabelOf trivRot ⟨0, 0, 0, 2, 2, 2, 0⟩ ⟨0, 0, 0⟩).x ∧
      (partLabelOf trivRot ⟨0, 0, 0, 2, 2, 2, 0⟩ ⟨0, 0, 0⟩).x ≤ 1) :=
  ⟨(part_labels_formula_and_range trivRot [⟨0, 0, 0, 2, 2, 2, 0⟩]
      (fgIgnore trivRot [⟨0, 0, 0, 2, 2, 2, 0⟩]) [⟨0, 0, 0⟩]).1 0 ⟨0, 0, 0⟩ rfl,
   ⟨((part_labels_formula_and_range trivRot [⟨0, 0, 0, 2, 2, 2, 0⟩]
        (fgIgnore trivRot [⟨0, 0, 0, 2, 2, 2, 0⟩]) [⟨0, 0, 0⟩]).2.1
        ⟨0, 0, 0, 2, 2, 2, 0⟩ ⟨0, 0, 0⟩
        (by norm_num [strictlyInside, localCoords, rotate_points_along_y, trivRot])).1,
    ((part_labels_formula_and_range trivRot [⟨0, 0, 0, 2, 2, 2, 0⟩]
        (fgIgnore trivRot [⟨0, 0, 0, 2, 2, 2, 0⟩]) [⟨0, 0, 0⟩]).2.1
        ⟨0, 0, 0, 2, 2, 2, 0⟩ ⟨0, 0, 0⟩
        (by norm_num [strictlyInside, localCoords, rotate_points_along_y, trivRot])).2.1⟩⟩

/-- C8 (amended): in ball-constraint mode with a single foreground class, a
point is labeled foreground exactly when some ground-truth box contains it
and its distance to the assigned box's center shifted along the third
coordinate (z) by half the box length (column 5) is within the configured
radius; no point receives the ignore label `-1` in this mode. -/
theorem ball_mode_foreground_criterion
    (R : VertRot) (boxes : List Box) (radius : ℚ) (p : Pt) :
    (0 < clsLabelBall R boxes 1 radius p ↔
      ((∃ b ∈ boxes, inBox R b p = true) ∧
        distSq (shiftedCenter (pyIndex boxes (points_in_boxes_gpu R boxes p))) p
          < radius ^ 2)) ∧
    clsLabelBall R boxes 1 radius p ≠ -1 ∧
    (∀ (encode : Box → Pt → List ℚ) (num_class : ℕ) (pts : List Pt)
        (extOpt : Option (List Box)) (rB rP : Bool),
      assignSingle R encode num_class pts boxes extOpt rB rP false true radius =
        Except.ok (pts.map (clsLabelBall R boxes num_class radius),
          boxRowsOf R encode boxes (fgBall R boxes radius) rB pts,
          partRowsOf R boxes (fgBall R boxes radius) rP pts)) := by
  refine ⟨?_, ?_, fun _ _ _ _ _ _ => rfl⟩
  · constructor
    · intro h
      by_cases hfb : fgBall R boxes radius p = true
      · rcases Bool.and_eq_true _ _ |>.mp hfb with ⟨hfg, hball⟩
        refine ⟨(fgIgnore_iff R boxes p).mp hfg, ?_⟩
        have := of_decide_eq_true (by simpa [ballFlag] using hball)
        exact this
      · rw [clsLabelBall, if_neg hfb] at h
        exact absurd h (by decide)
    · rintro ⟨hex, hdist⟩
      have hfb : fgBall R boxes radius p = true := by
        rw [fgBall, Bool.and_eq_true]
        refine ⟨(fgIgnore_iff R boxes p).mpr hex, ?_⟩
        simpa [ballFlag] using decide_eq_true hdist
      rw [clsLabelBall, if_pos hfb]
      simp [fgClsValue]
  · by_cases hfb : fgBall R boxes radius p = true
    · rw [clsLabelBall, if_pos hfb]
      simp [fgClsValue]
    · rw [clsLabelBall, if_neg hfb]
      decide

/-- Counterexample to C8 as stated: a long flat box (height `2/5`, length
`10`) centered at the origin with heading `0`, and the point at its
center.  The code shifts the z coordinate by half of column 5 (the
length), so the shifted center is at distance `5` from the point and the
point is labeled background — while the point is inside the box and within
radius `2` of the spec's top-center (the center shifted along the vertical
axis by half the height, under either sign convention). -/
theorem ball_mode_top_center_counterexample :
    inBox trivRot ⟨0, 0, 0, 2 / 5, 4, 10, 0⟩ ⟨0, 0, 0⟩ = true ∧
    specBallFg trivRot [⟨0, 0, 0, 2 / 5, 4, 10, 0⟩] 2 ⟨0, 0, 0⟩ = true ∧
    distSq ⟨0, 0 - (2 / 5) / 2, 0⟩ ⟨0, 0, 0⟩ < 2 ^ 2 ∧
    clsLabelBall trivRot [⟨0, 0, 0, 2 / 5, 4, 10, 0⟩] 1 2 ⟨0, 0, 0⟩ = 0 := by
  have hin : inBox trivRot ⟨0, 0, 0, 2 / 5, 4, 10, 0⟩ ⟨0, 0, 0⟩ = true := by
    norm_num [inBox, localCoords, rotate_points_along_y, trivRot, Bool.and_eq_true,
      decide_eq_true_eq]
  have hidx : points_in_boxes_gpu trivRot [⟨0, 0, 0, 2 / 5, 4, 10, 0⟩] ⟨0, 0, 0⟩ = 0 := by
    simp [points_in_boxes_gpu, hin]
  have hfg : fgIgnore trivRot [⟨0, 0, 0, 2 / 5, 4, 10, 0⟩] ⟨0, 0, 0⟩ = true := by
    simp [fgIgnore, hidx]
  have hball : ballFlag trivRot [⟨0, 0, 0, 2 / 5, 4, 10, 0⟩] 2 ⟨0, 0, 0⟩ = false := by
    rw [ballFlag]
    rw [hidx]
    norm_num [pyIndex, shiftedCenter, distSq]
  refine ⟨hin, ?_, by norm_num [distSq], ?_⟩
  · rw [specBallFg, hidx, Bool.and_eq_true]
    refine ⟨hfg, ?_⟩
    rw [decide_eq_true_eq]
    norm_num [pyIndex, specTopCenter, distSq]
  · rw [clsLabelBall, if_neg]
    rw [fgBall, hball]
    simp

/-- Chaining preservation of the cells below `n` across two store steps. -/
lemma frame_trans {n : ℕ} {h1 h2 h3 : Heap}
    (p1 : n ≤ h2.next ∧ ∀ j, j < n → h2.mem j = h1.mem j)
    (p2 : n ≤ h3.next ∧ ∀ j, j < n → h3.mem j = h2.mem j) :
    n ≤ h3.next ∧ ∀ j, j < n → h3.mem j = h1.mem j :=
  ⟨p2.1, fun j hj => (p2.2 j hj).trans (p1.2 j hj)⟩

/-- Allocation preserves every already-allocated cell. -/
lemma frame_halloc (n : ℕ) (h : Heap) (v : TVal) (hn : n ≤ h.next) :
    n ≤ (halloc h v).2.next ∧ ∀ j, j < n → (halloc h v).2.mem j = h.mem j :=
  ⟨by show n ≤ h.next + 1; omega,
   fun j hj => Function.update_noteq (by omega) _ _⟩

/-- Writing at or above `n` preserves every cell below `n`. -/
lemma frame_hwrite (n : ℕ) (h : Heap) (i : ℕ) (v : TVal)
    (hn : n ≤ h.next) (hi : n ≤ i) :
    n ≤ (hwrite h i v).next ∧ ∀ j, j < n → (hwrite h i v).mem j = h.mem j :=
  ⟨hn, fun j hj => Function.update_noteq (by omega) _ _⟩

/-- A fold of steps each preserving the cells below `n` preserves them. -/
lemma foldl_frame (n : ℕ) (f : Heap → ℕ → Heap)
    (hf : ∀ (h : Heap) (k : ℕ), n ≤ h.next →
      n ≤ (f h k).next ∧ ∀ j, j < n → (f h k).mem j = h.mem j) :
    ∀ (ks : List ℕ) (h : Heap), n ≤ h.next →
      n ≤ (ks.foldl f h).next ∧ ∀ j, j < n → (ks.foldl f h).mem j = h.mem j := by
  intro ks
  induction ks with
  | nil => intro h hn; exact ⟨hn, fun _ _ => rfl⟩
  | cons k ks ih =>
    intro h hn
    rw [List.foldl_cons]
    exact frame_trans (hf h k hn) (ih (f h k) (hf h k hn).1)

/-- The box-label and part-label stage writes only to fresh cells and to
the global label cells, all at or above `n`. -/
lemma boxPartHeap_frame (n : ℕ) (R : VertRot) (encode : Box → Pt → List ℚ)
    (boxes : List Box) (fgF : Pt → Bool) (ret_box ret_part : Bool)
    (boxId partId : Option ℕ) (pts : List Pt) (h : Heap)
    (hn : n ≤ h.next)
    (hb : ∀ b, boxId = some b → n ≤ b) (hp : ∀ q, partId = some q → n ≤ q) :
    n ≤ (boxPartHeap R encode boxes fgF ret_box ret_part boxId partId pts h).next ∧
    ∀ j, j < n →
      (boxPartHeap R encode boxes fgF ret_box ret_part boxId partId pts h).mem j =
        h.mem j := by
  unfold boxPartHeap
  have stage2 : ∀ (h1 : Heap), n ≤ h1.next →
      n ≤ (match partId with
        | some pId =>
          if ret_part then
            hwrite (hwrite (halloc h1 (TVal.vecs (List.replicate pts.length ⟨0, 0, 0⟩))).2
              (halloc h1 (TVal.vecs (List.replicate pts.length ⟨0, 0, 0⟩))).1
              (TVal.vecs (partRowsOf R boxes fgF ret_part pts))) pId
              (TVal.vecs (partRowsOf R boxes fgF ret_part pts))
          else h1
        | none => h1).next ∧
      ∀ j, j < n →
        (match partId with
        | some pId =>
          if ret_part then
            hwrite (hwrite (halloc h1 (TVal.vecs (List.replicate pts.length ⟨0, 0, 0⟩))).2
              (halloc h1 (TVal.vecs (List.replicate pts.length ⟨0, 0, 0⟩))).1
              (TVal.vecs (partRowsOf R boxes fgF ret_part pts))) pId
              (TVal.vecs (partRowsOf R boxes fgF ret_part pts))
          else h1
        | none => h1).mem j = h1.mem j := by
    intro h1 hn1
    cases partId with
    | none => exact ⟨hn1, fun _ _ => rfl⟩
    | some pId =>
      dsimp only
      by_cases hrp : ret_part = true
      · rw [if_pos hrp]
        have f1 := frame_halloc n h1 (TVal.vecs (List.replicate pts.length ⟨0, 0, 0⟩)) hn1
        have f2 := frame_hwrite n _ _
          (TVal.vecs (partRowsOf R boxes fgF ret_part pts)) f1.1 hn1
        have f3 := frame_hwrite n _ pId
          (TVal.vecs (partRowsOf R boxes fgF ret_part pts)) (frame_trans f1 f2).1
          (hp pId rfl)
        exact frame_trans (frame_trans f1 f2) f3
      · rw [if_neg hrp]
        exact ⟨hn1, fun _ _ => rfl⟩
  cases boxId with
  | none => exact stage2 h hn
  | some bId =>
    dsimp only
    by_cases hrb : (ret_box = true ∧ 0 < pts.countP fgF)
    · rw [if_pos hrb]
      have f1 := frame_halloc n h (TVal.rows (List.replicate pts.length zeros8)) hn
      have f2 := frame_hwrite n _ _
        (TVal.rows (boxRowsOf R encode boxes fgF ret_box pts)) f1.1 hn
      have f3 := frame_hwrite n _ bId
        (TVal.rows (boxRowsOf R encode boxes fgF ret_box pts)) (frame_trans f1 f2).1
        (hb bId rfl)
      exact frame_trans (frame_trans (frame_trans f1 f2) f3)
        (stage2 _ (frame_trans (frame_trans f1 f2) f3).1)
    · rw [if_neg hrb]
      exact stage2 h hn

set_option maxHeartbeats 1000000 in
/-- One per-batch iteration writes only to fresh cells and to the global
label cells, all at or above `n`. -/
lemma batchHeapStep_frame (n : ℕ) (R : VertRot) (encode : Box → Pt → List ℚ)
    (num_class : ℕ) (pts : List Pt) (boxes : List Box) (extOpt : Option (List Box))
    (ret_box ret_part set_ignore use_ball : Bool) (radius : ℚ)
    (clsId : ℕ) (boxId partId : Option ℕ) (h : Heap)
    (hn : n ≤ h.next) (hcls : n ≤ clsId)
    (hb : ∀ b, boxId = some b → n ≤ b) (hp : ∀ q, partId = some q → n ≤ q) :
    n ≤ (batchHeapStep R encode num_class pts boxes extOpt
      ret_box ret_part set_ignore use_ball radius clsId boxId partId h).next ∧
    ∀ j, j < n →
      (batchHeapStep R encode num_class pts boxes extOpt
        ret_box ret_part set_ignore use_ball radius clsId boxId partId h).mem j =
        h.mem j := by
  unfold batchHeapStep
  have f1 := frame_halloc n h (TVal.ints (List.replicate pts.length 0)) hn
  have f2 := frame_halloc n _ (TVal.ints (pts.map (points_in_boxes_gpu R boxes))) f1.1
  have f12 := frame_trans f1 f2
  cases set_ignore with
  | true =>
    rw [if_pos rfl]
    cases extOpt with
    | none => exact f12
    | some ext =>
      have f3 := frame_halloc n _ (TVal.ints (pts.map (points_in_boxes_gpu R ext))) f12.1
      have f4 := frame_hwrite n _ _ (TVal.ints (pts.map (fun p =>
        if xor (fgIgnore R boxes p) (decide (0 ≤ points_in_boxes_gpu R ext p))
        then -1 else 0))) (frame_trans f12 f3).1 hn
      have f5 := frame_hwrite n _ _
        (TVal.ints (pts.map (clsLabelIgnore R boxes ext num_class)))
        (frame_trans (frame_trans f12 f3) f4).1 hn
      have f6 := frame_hwrite n _ clsId
        (TVal.ints (pts.map (clsLabelIgnore R boxes ext num_class)))
        (frame_trans (frame_trans (frame_trans f12 f3) f4) f5).1 hcls
      have f16 := frame_trans (frame_trans (frame_trans (frame_trans f12 f3) f4) f5) f6
      exact frame_trans f16
        (boxPartHeap_frame n R encode boxes (fgIgnore R boxes) ret_box ret_part
          boxId partId pts _ f16.1 hb hp)
  | false =>
    rw [if_neg (by simp)]
    cases use_ball with
    | true =>
      rw [if_pos rfl]
      have f3 := frame_halloc n _ (TVal.vecs (pts.map (fun p =>
        let b := pyIndex boxes (points_in_boxes_gpu R boxes p)
        (⟨b.x, b.y, b.z⟩ : Pt)))) f12.1
      have f4 := frame_hwrite n _ _ (TVal.vecs (pts.map (fun p =>
        shiftedCenter (pyIndex boxes (points_in_boxes_gpu R boxes p)))))
        (frame_trans f12 f3).1 f12.1
      have f5 := frame_hwrite n _ _
        (TVal.ints (pts.map (clsLabelBall R boxes num_class radius)))
        (frame_trans (frame_trans f12 f3) f4).1 hn
      have f6 := frame_hwrite n _ clsId
        (TVal.ints (pts.map (clsLabelBall R boxes num_class radius)))
        (frame_trans (frame_trans (frame_trans f12 f3) f4) f5).1 hcls
      have f16 := frame_trans (frame_trans (frame_trans (frame_trans f12 f3) f4) f5) f6
      exact frame_trans f16
        (boxPartHeap_frame n R encode boxes (fgBall R boxes radius) ret_box ret_part
          boxId partId pts _ f16.1 hb hp)
    | false =>
      rw [if_neg (by simp)]
      exact f12

/-- Frame and bound facts for the conditional allocation of a global label
tensor (`point_box_labels` / `point_part_labels`, lines 77-78). -/
lemma optAlloc_frame (n : ℕ) (h : Heap) (flag : Bool) (v : TVal) (hn : n ≤ h.next) :
    (n ≤ ((if flag then ((some (halloc h v).1 : Option ℕ), (halloc h v).2)
        else (none, h)).2).next ∧
      ∀ j, j < n →
        ((if flag then ((some (halloc h v).1 : Option ℕ), (halloc h v).2)
          else (none, h)).2).mem j = h.mem j) ∧
    (∀ b, (if flag then ((some (halloc h v).1 : Option ℕ), (halloc h v).2)
        else (none, h)).1 = some b → n ≤ b) := by
  cases flag with
  | true =>
    rw [if_pos rfl]
    refine ⟨frame_halloc n h v hn, ?_⟩
    intro b hb
    rw [Option.some.injEq] at hb
    cases hb
    exact hn
  | false =>
    rw [if_neg (by simp)]
    exact ⟨⟨hn, fun _ _ => rfl⟩, fun b hb => Option.noConfusion hb⟩

set_option maxHeartbeats 2000000 in
/-- C10: `assign_stack_targets` never mutates its argument tensors — the
points are copied into a fresh stacked tensor before use and the ball-mode
center shift writes to a clone — so after the call every cell that existed
before the call (in particular those holding `points`, `gt_boxes` and
`extend_gt_boxes`) holds its original value. -/
theorem assign_never_mutates_inputs
    (R : VertRot) (encode : Box → Pt → List ℚ) (num_class : ℕ)
    (points : List (List Pt)) (gt_boxes : List (List Box))
    (extend_gt_boxes : Option (List (List Box)))
    (ret_box ret_part set_ignore use_ball : Bool) (radius : ℚ)
    (h0 : Heap) (i : ℕ) (hi : i < h0.next) :
    (assignStackTargetsHeap R encode num_class points gt_boxes extend_gt_boxes
      ret_box ret_part set_ignore use_ball radius h0).mem i = h0.mem i := by
  have hn0 : h0.next ≤ h0.next := Nat.le_refl _
  have f1 := frame_halloc h0.next h0
    (TVal.flat (List.replicate (tmpRows points gt_boxes.length).length (0, ⟨0, 0, 0⟩))) hn0
  have f2 := foldl_frame h0.next
    (fun h i => hwrite h (halloc h0
      (TVal.flat (List.replicate (tmpRows points gt_boxes.length).length (0, ⟨0, 0, 0⟩)))).1
      (TVal.flat (tmpRows points (i + 1))))
    (fun h k hn => frame_hwrite h0.next h _ _ hn hn0)
    (List.range gt_boxes.length) _ f1.1
  have f12 := frame_trans f1 f2
  unfold assignStackTargetsHeap
  by_cases hsu : (set_ignore == use_ball) = true
  · rw [if_pos hsu]
    exact f12.2 i hi
  · rw [if_neg hsu]
    dsimp only
    have f3 := frame_halloc h0.next _
      (TVal.ints (List.replicate (tmpRows points gt_boxes.length).length 0)) f12.1
    have f13 := frame_trans f12 f3
    have oB := optAlloc_frame h0.next _ ret_box
      (TVal.rows (List.replicate (tmpRows points gt_boxes.length).length zeros8)) f13.1
    have f14 := frame_trans f13 oB.1
    have oP := optAlloc_frame h0.next _ ret_part
      (TVal.vecs (List.replicate (tmpRows points gt_boxes.length).length ⟨0, 0, 0⟩)) f14.1
    have f15 := frame_trans f14 oP.1
    have ff := foldl_frame h0.next _
      (fun h k hn => batchHeapStep_frame h0.next R encode num_class
        (points.getD k []) (gt_boxes.getD k [])
        (extend_gt_boxes.map (fun e => e.getD k []))
        ret_box ret_part set_ignore use_ball radius _ _ _ h hn f12.1 oB.2 oP.2)
      (List.range gt_boxes.length) _ f15.1
    exact (frame_trans f15 ff).2 i hi

/-- Witness for C10: a one-cell store holding an input value is untouched
by a full ignore-mode call. -/
theorem assign_never_mutates_inputs_witness :
    (assignStackTargetsHeap trivRot (fun _ _ => []) 1 [[⟨0, 0, 0⟩]]
      [[⟨0, 0, 0, 2, 2, 2, 0⟩]] (some [[⟨0, 0, 0, 2, 2, 2, 0⟩]])
      true true true false 2 ⟨1, fun _ => TVal.undef⟩).mem 0 =
      (⟨1, fun _ => TVal.undef⟩ : Heap).mem 0 :=
  assign_never_mutates_inputs trivRot (fun _ _ => []) 1 [[⟨0, 0, 0⟩]]
    [[⟨0, 0, 0, 2, 2, 2, 0⟩]] (some [[⟨0, 0, 0, 2, 2, 2, 0⟩]])
    true true true false 2 ⟨1, fun _ => TVal.undef⟩ 0 (by decide)

end PointHead
